import Mathlib

/-!
Shallow embedding of the Unmanic-Sub-Sync plugin (`plugin.py`).

Paths and file names are modelled as lists of characters (`Str`).  The
Python standard-library helpers the plugin calls (`os.path.splitext`,
`os.path.basename`, `os.path.dirname`, `os.path.join`, `str.lower`,
substring containment `in`, `shlex.quote`, `collections.Counter`
equality) are embedded below following their CPython (posixpath)
semantics.  The host-provided `UnmanicDirectoryInfo` store is opaque to
the plugin; per the specification it is treated as a key-value store
whose `get` returns what `set` stored (raising when absent).
-/

abbrev Str := List Char

/-- The single-quote character, written numerically. -/
def squote : Char := Char.ofNat 39

/-- The double-quote character, written numerically. -/
def dquote : Char := Char.ofNat 34

/-- Index of the last occurrence of `c` in `s`, if any (`str.rfind`). -/
def lastIndexOf (c : Char) : Str → Option Nat
  | [] => none
  | x :: xs =>
    match lastIndexOf c xs with
    | some i => some (i + 1)
    | none => if x = c then some 0 else none

/-- Index where the final path component starts: one past the last `/`
(0 when the path has no separator). -/
def baseStart (p : Str) : Nat :=
  match lastIndexOf '/' p with
  | some i => i + 1
  | none => 0

/-- `os.path.basename`: the final path component. -/
def basename (p : Str) : Str := p.drop (baseStart p)

/-- Drop trailing `/` characters (`str.rstrip('/')`). -/
def rstripSlash (s : Str) : Str := (s.reverse.dropWhile (fun c => c = '/')).reverse

/-- `os.path.dirname` (posixpath): everything before the final component,
with trailing separators stripped unless the head is all separators. -/
def dirname (p : Str) : Str :=
  let head := p.take (baseStart p)
  if head ≠ [] ∧ head.any (fun c => c ≠ '/') then rstripSlash head else head

/-- `os.path.splitext` (posixpath): split off the extension at the last
dot, provided that dot lies in the final component and is preceded there
by at least one non-dot character (so dotfiles have no extension). -/
def splitext (p : Str) : Str × Str :=
  match lastIndexOf '.' p with
  | none => (p, [])
  | some d =>
    let s := baseStart p
    if s ≤ d then
      if ((p.take d).drop s).any (fun c => c ≠ '.') then (p.take d, p.drop d)
      else (p, [])
    else (p, [])

/-- `str.lower`, restricted to ASCII case mapping (all file names and
extensions the plugin compares are ASCII). -/
def lower (s : Str) : Str := s.map Char.toLower

/-- Is `n` a prefix of `h`? (helper for substring containment). -/
def startsWithChars : Str → Str → Bool
  | [], _ => true
  | _ :: _, [] => false
  | c :: n, d :: h => c == d && startsWithChars n h

/-- Python substring containment `n in h`. -/
def isSubOf (n : Str) : Str → Bool
  | [] => n == []
  | c :: t => startsWithChars n (c :: t) || isSubOf n t

/-- `os.path.join` (posixpath) of a directory and a further component. -/
def pathJoin (a b : Str) : Str :=
  if b.head? = some '/' then b
  else if a = [] then b
  else if a.getLast? = some '/' then a ++ b
  else a ++ '/' :: b

/-- `Counter(a) == Counter(b)`: equality of the multisets of elements. -/
def counterEq (a b : List Str) : Bool :=
  decide ((a : Multiset Str) = (b : Multiset Str))

/-!
## Inclusion test (`subs_already_synced`, `on_library_management_file_test`)

`DirState` packages what one invocation observes about the path's
directory: the result of `os.listdir` and the `subs_synced` section of
the directory's `UnmanicDirectoryInfo` store.  `store k = none` models a
`get` that raises (missing or unreadable entry); the handler then uses
the empty string, whose `Counter` equals the `Counter` of the empty
list, so the fallback is embedded as `[]`.
-/

structure DirState where
  files : List Str
  store : Str → Option (List Str)

/-- `directory_info.get('subs_synced', os.path.basename(path).lower())`,
with the exception handler's empty fallback. -/
def getSynced (st : DirState) (path : Str) : List Str :=
  match st.store (lower (basename path)) with
  | some l => l
  | none => []

/-- The `srts` list of `subs_already_synced`: directory entries whose
extension lowercases to `.srt` and which contain the media root. -/
def currentSrtsCI (files : List Str) (path : Str) : List Str :=
  files.filter (fun file =>
    lower (splitext file).2 == ".srt".toList &&
    isSubOf (splitext (basename path)).1 file)

/-- `subs_already_synced(path)`: compare the recorded subtitle names with
those currently on disk by `Counter` (multiset) equality. -/
def subs_already_synced (st : DirState) (path : Str) : Bool :=
  counterEq (getSynced st path) (currentSrtsCI st.files path)

/-- The `data` mapping passed to `on_library_management_file_test`. -/
structure LibTestData where
  library_id : Nat
  path : Str
  issues : List Str
  add_file_to_pending_tasks : Bool
  priority_score : Int
  shared_info : List (Str × Str)
deriving DecidableEq

/-- `on_library_management_file_test(data)`: for `.mp4` paths (extension
lowercased), mark the file pending unless its subtitles are already
synced; otherwise return the input unchanged. -/
def on_library_management_file_test (st : DirState) (d : LibTestData) : LibTestData :=
  let abspath := d.path
  if lower (splitext abspath).2 = ".mp4".toList then
    if subs_already_synced st abspath = false then
      { d with add_file_to_pending_tasks := true }
    else d
  else d

/-!
## Command builder (`on_worker_process`)

The probe is an external capability; its outcome is the boolean
parameter `probeOk`.  Python mutates the `data` dictionary in place, so
the embedding returns the final dictionary state together with
`Option Str`: `some msg` when the body raises (the dictionary mutations
made before the raise remain visible to the host).  On the probe-failure
path the source evaluates `logger.warning("...").format(abspath)`;
`logger.warning` returns `None`, so the `.format` attribute lookup
raises `AttributeError` after the warning is emitted.
-/

/-- The exception escaping `on_worker_process` when the probe fails. -/
def pyAttributeError : Str :=
  "AttributeError: NoneType object has no attribute format".toList

/-- The characters `shlex.quote` leaves unquoted, per CPython's
`_find_unsafe` ASCII regex class: word characters plus `@ % + = : , .`
and the slash and hyphen. -/
def shlexSafe (c : Char) : Bool :=
  c.isAlphanum || "_@%+=:,./-".toList.contains c

/-- `s.replace("'", "'\"'\"'")`, the interior step of `shlex.quote`. -/
def escapeQuotes (s : Str) : Str :=
  s.flatMap (fun c =>
    if c = squote then [squote, dquote, squote, dquote, squote] else [c])

/-- `shlex.quote(s)`: empty becomes a pair of single quotes, strings of
safe characters pass through, anything else is single-quote wrapped with
interior single quotes escaped. -/
def shlexQuote (s : Str) : Str :=
  if s = [] then [squote, squote]
  else if s.all shlexSafe then s
  else squote :: escapeQuotes s ++ [squote]

/-- The `srtfiles` loop shared by `on_worker_process` and
`on_postprocessor_task_results`: entries with exact-case `.srt`
extension containing the path's root as a substring. -/
def srtFilesExact (files : List Str) (path : Str) : List Str :=
  files.filter (fun file =>
    (splitext file).2 == ".srt".toList &&
    isSubOf (splitext (basename path)).1 file)

/-- One `"ffsubsync {} -i {} -o {} --gss"` segment, the format call of
the worker loop (the trailing `;` of the format string is appended by
the fold in `on_worker_process`). -/
def buildSegment (abspath srtpath : Str) : Str :=
  "ffsubsync ".toList ++ shlexQuote abspath ++
  " -i ".toList ++ shlexQuote srtpath ++
  " -o ".toList ++ shlexQuote srtpath ++ " --gss".toList

/-- The `data` mapping passed to `on_worker_process`.  The progress
parser is a host callback; the embedding records only whether it was
set. -/
structure WorkerData where
  exec_command : List Str
  command_progress_parser_set : Bool
  file_in : Str
  file_out : Str
  original_file_path : Str
  repeat_flag : Bool
deriving DecidableEq

/-- `on_worker_process(data)`: default the command to empty and repeat
to false; raise `AttributeError` if the probe failed; return early when
no matching subtitles exist; otherwise chain one `ffsubsync` call per
subtitle with `;` and strip the final two characters (`[:-2]`). -/
def on_worker_process (files : List Str) (probeOk : Bool) (d : WorkerData) :
    WorkerData × Option Str :=
  let d1 := { d with exec_command := ([] : List Str), repeat_flag := false }
  if probeOk = false then
    (d1, some pyAttributeError)
  else
    let abspath := d.original_file_path
    let srtfiles := srtFilesExact files abspath
    if srtfiles.length < 1 then (d1, none)
    else
      let raw := srtfiles.foldl
        (fun acc srt =>
          acc ++ buildSegment abspath (pathJoin (dirname abspath) srt) ++ [';'])
        []
      let longcommand := raw.take (raw.length - 2)
      let d2 := { d1 with
        exec_command := ["bash".toList, "-c".toList, longcommand] }
      let d3 :=
        if d2.exec_command ≠ [] then { d2 with command_progress_parser_set := true }
        else d2
      (d3, none)

/-!
## Completion recorder (`on_postprocessor_task_results`)

The persisted state across directories is a function from directory to
key to stored subtitle list.  `listdir` abstracts `os.listdir`.  The
recorder's calls to the host store are additionally logged as `SyncOp`
values so that "performs no set or save" is expressible.
-/

abbrev Store := Str → Str → Option (List Str)

/-- `directory_info.set` followed by persistence: point update. -/
def storeSet (st : Store) (dir k : Str) (v : List Str) : Store :=
  fun dir2 k2 => if dir2 = dir ∧ k2 = k then some v else st dir2 k2

/-- One host-store call made by the completion recorder. -/
inductive SyncOp where
  | set : Str → Str → List Str → SyncOp
  | save : Str → SyncOp
deriving DecidableEq

/-- The `data` mapping passed to `on_postprocessor_task_results`. -/
structure PPData where
  task_processing_success : Bool
  file_move_processes_success : Bool
  destination_files : List Str
  source_data : List (Str × Str)
deriving DecidableEq

/-- The `srtfiles` computed for one destination file: exact-case `.srt`
entries of its directory containing its root. -/
def recordedList (listdir : Str → List Str) (f : Str) : List Str :=
  srtFilesExact (listdir (dirname f)) f

/-- One iteration of the recorder's loop body: `directory_info.set`
followed by `directory_info.save` for one destination file. -/
def ppStep (listdir : Str → List Str) (acc : Store × List SyncOp) (f : Str) :
    Store × List SyncOp :=
  let srtfiles := recordedList listdir f
  (storeSet acc.1 (dirname f) (basename f) srtfiles,
   acc.2 ++ [SyncOp.set (dirname f) (basename f) srtfiles,
             SyncOp.save (dirname f)])

/-- `on_postprocessor_task_results(data)`: no-op unless the task
succeeded; otherwise, per destination file, store the directory's
matching `.srt` list under the destination's (non-lowercased) file name
and save. -/
def on_postprocessor_task_results (listdir : Str → List Str) (d : PPData)
    (st : Store) : PPData × Store × List SyncOp :=
  if d.task_processing_success = false then (d, st, [])
  else
    let final := d.destination_files.foldl (ppStep listdir) (st, [])
    (d, final.1, final.2)

/-!
## Specification-side definitions used in theorem statements
-/

/-- Join a list of script segments with a single separator character and
no trailing separator (the layout §4.2 of the specification describes). -/
def sepJoin (c : Char) : List Str → Str
  | [] => []
  | [x] => x
  | x :: y :: t => x ++ c :: sepJoin c (y :: t)

/-- Shell-lexer state: outside any quotes, inside single quotes, inside
double quotes. -/
inductive QuoteState where
  | out
  | sgl
  | dbl
deriving DecidableEq

/-- The characters of a script that stand outside every quoted region,
scanning with POSIX single- and double-quote rules. -/
def unquotedChars : QuoteState → Str → Str
  | _, [] => []
  | .out, c :: t =>
    if c = squote then unquotedChars .sgl t
    else if c = dquote then unquotedChars .dbl t
    else c :: unquotedChars .out t
  | .sgl, c :: t =>
    if c = squote then unquotedChars .out t else unquotedChars .sgl t
  | .dbl, c :: t =>
    if c = dquote then unquotedChars .out t else unquotedChars .dbl t

/-- The store component of the recorder's loop, in isolation. -/
def ppStoreFold (listdir : Str → List Str) (l : List Str) (s : Store) : Store :=
  l.foldl
    (fun s2 f => storeSet s2 (dirname f) (basename f) (recordedList listdir f)) s

/-- What the recorder stores for directory `dir` and a destination whose
`os.path.basename` is `base`: the recorded list depends on the
destination only through these two values. -/
def valueAt (listdir : Str → List Str) (dir base : Str) : List Str :=
  (listdir dir).filter (fun file =>
    (splitext file).2 == ".srt".toList &&
    isSubOf (splitext base).1 file)

/-- The two host-store calls the recorder makes for one destination. -/
def opsFor (listdir : Str → List Str) (f : Str) : List SyncOp :=
  [SyncOp.set (dirname f) (basename f) (recordedList listdir f),
   SyncOp.save (dirname f)]

/-!
## Helper lemmas
-/

theorem counterEq_true_iff (a b : List Str) :
    counterEq a b = true ↔ (a : Multiset Str) = (b : Multiset Str) := by
  simp [counterEq]

theorem subs_already_synced_true_iff (st : DirState) (path : Str) :
    subs_already_synced st path = true ↔
      (getSynced st path : Multiset Str) = (currentSrtsCI st.files path : Multiset Str) := by
  unfold subs_already_synced
  exact counterEq_true_iff _ _

/-!
## Claims about the inclusion test
-/

/-- C1: for a path whose extension lowercases to `.mp4` and whose
inclusion flag is not already set, `on_library_management_file_test`
sets `add_file_to_pending_tasks` to `true` iff the multiset of `.srt`
files currently in the directory that match the basename differs from
the multiset recorded in the `SyncRecord` entry (an absent or unreadable
entry reads back as the empty fallback). -/
theorem c1_inclusion_iff_multiset_drift (st : DirState) (d : LibTestData)
    (hext : lower (splitext d.path).2 = ".mp4".toList)
    (hflag : d.add_file_to_pending_tasks = false) :
    (on_library_management_file_test st d).add_file_to_pending_tasks = true ↔
      (currentSrtsCI st.files d.path : Multiset Str) ≠ (getSynced st d.path : Multiset Str) := by
  unfold on_library_management_file_test
  rw [if_pos hext]
  cases hb : subs_already_synced st d.path with
  | false =>
    rw [if_pos rfl]
    simp only [show ({ d with add_file_to_pending_tasks := true } :
      LibTestData).add_file_to_pending_tasks = true from rfl, true_iff]
    intro hEq
    have hT : subs_already_synced st d.path = true :=
      (subs_already_synced_true_iff st d.path).mpr hEq.symm
    rw [hb] at hT
    exact Bool.false_ne_true hT
  | true =>
    rw [if_neg (by decide : ¬ (true = false))]
    rw [hflag]
    simp only [Bool.false_eq_true, false_iff, not_not]
    exact ((subs_already_synced_true_iff st d.path).mp hb).symm

/-- Witness for C1 at a concrete directory: one recorded subtitle, two
on disk, so the multisets differ and the flag is set. -/
theorem c1_witness :
    lower (splitext ("/lib/movie.mp4".toList)).2 = ".mp4".toList ∧
    ((on_library_management_file_test
        ⟨["movie.srt".toList, "movie.fr.srt".toList],
         fun k => if k = "movie.mp4".toList then some ["movie.srt".toList] else none⟩
        ⟨1, "/lib/movie.mp4".toList, [], false, 0, []⟩).add_file_to_pending_tasks = true ↔
      (currentSrtsCI ["movie.srt".toList, "movie.fr.srt".toList] "/lib/movie.mp4".toList :
          Multiset Str) ≠
        (getSynced
          ⟨["movie.srt".toList, "movie.fr.srt".toList],
           fun k => if k = "movie.mp4".toList then some ["movie.srt".toList] else none⟩
          "/lib/movie.mp4".toList : Multiset Str)) :=
  ⟨by decide,
   c1_inclusion_iff_multiset_drift
     ⟨["movie.srt".toList, "movie.fr.srt".toList],
      fun k => if k = "movie.mp4".toList then some ["movie.srt".toList] else none⟩
     ⟨1, "/lib/movie.mp4".toList, [], false, 0, []⟩ (by decide) rfl⟩

/-- C9: a `.mp4` path with no readable `SyncRecord` entry and no
matching `.srt` file on disk is reported as already synced (the empty
fallback equals the empty candidate list), so the inclusion test leaves
the input unchanged and never queues it. -/
theorem c9_subtitle_less_video_not_queued (st : DirState) (d : LibTestData)
    (hext : lower (splitext d.path).2 = ".mp4".toList)
    (hrec : st.store (lower (basename d.path)) = none)
    (hsrt : currentSrtsCI st.files d.path = []) :
    subs_already_synced st d.path = true ∧
    on_library_management_file_test st d = d := by
  have h1 : subs_already_synced st d.path = true := by
    unfold subs_already_synced getSynced
    rw [hrec, hsrt]
    simp [counterEq]
  refine ⟨h1, ?_⟩
  unfold on_library_management_file_test
  rw [if_pos hext, if_neg (by rw [h1]; decide)]

/-- Witness for C9: an empty store and a directory holding only an
unrelated text file. -/
theorem c9_witness :
    lower (splitext ("/lib/movie.mp4".toList)).2 = ".mp4".toList ∧
    currentSrtsCI ["readme.txt".toList] "/lib/movie.mp4".toList = [] ∧
    (subs_already_synced ⟨["readme.txt".toList], fun _ => none⟩ "/lib/movie.mp4".toList = true ∧
     on_library_management_file_test ⟨["readme.txt".toList], fun _ => none⟩
        ⟨1, "/lib/movie.mp4".toList, [], false, 0, []⟩ =
       ⟨1, "/lib/movie.mp4".toList, [], false, 0, []⟩) :=
  ⟨by decide, by decide,
   c9_subtitle_less_video_not_queued ⟨["readme.txt".toList], fun _ => none⟩
     ⟨1, "/lib/movie.mp4".toList, [], false, 0, []⟩ (by decide) rfl (by decide)⟩

/-- C10: the inclusion test touches only the inclusion flag: for every
input it either returns the mapping unchanged or returns it with
`add_file_to_pending_tasks` set to `true`; in particular a flag already
`true` is never cleared and no other field changes. -/
theorem c10_inclusion_flag_frame (st : DirState) (d : LibTestData) :
    on_library_management_file_test st d = d ∨
    on_library_management_file_test st d =
      { d with add_file_to_pending_tasks := true } := by
  unfold on_library_management_file_test
  by_cases h1 : lower (splitext d.path).2 = ".mp4".toList
  · rw [if_pos h1]
    by_cases h2 : subs_already_synced st d.path = false
    · rw [if_pos h2]
      right
      rfl
    · rw [if_neg h2]
      left
      rfl
  · rw [if_neg h1]
    left
    rfl

/-!
## Claims about the command builder
-/

/-- C2: when the probe fails, `on_worker_process` does NOT halt
gracefully: after emitting the warning it evaluates
`logger.warning(...).format(abspath)`, whose `.format` attribute access
on `None` raises `AttributeError`, and that exception propagates to the
host.  The dictionary keeps the defaults set first (empty command, no
repeat), but the claimed no-exception contract is violated. -/
theorem c2_probe_failure_raises (files : List Str) (d : WorkerData) :
    on_worker_process files false d =
      ({ d with exec_command := [], repeat_flag := false },
       some pyAttributeError) := by
  rfl

/-- C8: `on_worker_process` defaults the command to empty and the repeat
flag to false, and when the directory holds no exact-case `.srt` file
matching the media basename it returns with exactly those defaults, so
no external process is armed. -/
theorem c8_no_candidates_no_command (files : List Str) (d : WorkerData)
    (h : srtFilesExact files d.original_file_path = []) :
    on_worker_process files true d =
      ({ d with exec_command := [], repeat_flag := false }, none) := by
  unfold on_worker_process
  rw [if_neg (by decide : ¬ (true = false))]
  simp only [h]
  rw [if_pos (by simp : ([] : List Str).length < 1)]

/-- Witness for C8: a directory with only a text file. -/
theorem c8_witness :
    srtFilesExact ["notes.txt".toList] "/m/video.mp4".toList = [] ∧
    on_worker_process ["notes.txt".toList] true
        ⟨["stale".toList], false, "/m/video.mp4".toList, "/m/video.mp4".toList,
         "/m/video.mp4".toList, true⟩ =
      ({ exec_command := [], command_progress_parser_set := false,
         file_in := "/m/video.mp4".toList, file_out := "/m/video.mp4".toList,
         original_file_path := "/m/video.mp4".toList, repeat_flag := false }, none) :=
  ⟨by decide,
   c8_no_candidates_no_command ["notes.txt".toList]
     ⟨["stale".toList], false, "/m/video.mp4".toList, "/m/video.mp4".toList,
      "/m/video.mp4".toList, true⟩ (by decide)⟩

theorem foldl_append_segments (g : Str → Str) (l : List Str) :
    ∀ acc : Str,
      l.foldl (fun a s => a ++ g s ++ [';']) acc =
        acc ++ (l.map (fun s => g s ++ [';'])).flatten := by
  induction l with
  | nil => intro acc; simp
  | cons x t ih =>
    intro acc
    simp only [List.foldl_cons, List.map_cons, List.flatten_cons]
    rw [ih (acc ++ g x ++ [';'])]
    simp [List.append_assoc]

theorem flatten_terminated_eq_sepJoin (c : Char) (l : List Str) (hl : l ≠ []) :
    (l.map (fun s => s ++ [c])).flatten = sepJoin c l ++ [c] := by
  induction l with
  | nil => exact absurd rfl hl
  | cons x t ih =>
    cases t with
    | nil => simp [sepJoin]
    | cons y u =>
      simp only [List.map_cons, List.flatten_cons] at ih ⊢
      rw [ih (by simp)]
      simp [sepJoin, List.append_assoc]

theorem take_sub_two_of_terminated (X : Str) (c : Char) :
    (X ++ [c]).take ((X ++ [c]).length - 2) = X.dropLast := by
  have hlen : (X ++ [c]).length = X.length + 1 := by simp
  rw [hlen]
  have h2 : X.length + 1 - 2 = X.length - 1 := by omega
  rw [h2, List.take_append_eq_append_take]
  have h3 : X.length - 1 - X.length = 0 := by omega
  rw [h3, List.take_zero, List.append_nil, List.dropLast_eq_take]

theorem worker_longcommand_eq (abspath : Str) (l : List Str) (hl : l ≠ []) :
    (l.foldl (fun acc srt =>
        acc ++ buildSegment abspath (pathJoin (dirname abspath) srt) ++ [';']) []).take
      ((l.foldl (fun acc srt =>
        acc ++ buildSegment abspath (pathJoin (dirname abspath) srt) ++ [';']) []).length - 2) =
    (sepJoin ';' (l.map (fun srt =>
        buildSegment abspath (pathJoin (dirname abspath) srt)))).dropLast := by
  have h1 : l.foldl (fun acc srt =>
      acc ++ buildSegment abspath (pathJoin (dirname abspath) srt) ++ [';']) [] =
      sepJoin ';' (l.map (fun srt =>
        buildSegment abspath (pathJoin (dirname abspath) srt))) ++ [';'] := by
    have h := foldl_append_segments
        (fun srt => buildSegment abspath (pathJoin (dirname abspath) srt)) l []
    simp only [List.nil_append] at h
    rw [h]
    have h2 : (l.map (fun s =>
        buildSegment abspath (pathJoin (dirname abspath) s) ++ [';'])) =
        ((l.map (fun s => buildSegment abspath (pathJoin (dirname abspath) s))).map
          (fun s => s ++ [';'])) := by
      rw [List.map_map]
      rfl
    rw [h2, flatten_terminated_eq_sepJoin _ _ (by simpa using hl)]
  rw [h1, take_sub_two_of_terminated]

theorem on_worker_process_armed (files : List Str) (d : WorkerData)
    (h : srtFilesExact files d.original_file_path ≠ []) :
    on_worker_process files true d =
      ({ d with
          exec_command := ["bash".toList, "-c".toList,
            (sepJoin ';' ((srtFilesExact files d.original_file_path).map
               (fun srt => buildSegment d.original_file_path
                  (pathJoin (dirname d.original_file_path) srt)))).dropLast],
          command_progress_parser_set := true,
          repeat_flag := false }, none) := by
  have hlen : ¬ (srtFilesExact files d.original_file_path).length < 1 := by
    rw [Nat.lt_one_iff, List.length_eq_zero]
    exact h
  unfold on_worker_process
  rw [if_neg (by decide : ¬ (true = false))]
  simp only [if_neg hlen]
  rw [if_pos (by simp : (["bash".toList, "-c".toList,
    ((srtFilesExact files d.original_file_path).foldl (fun acc srt =>
        acc ++ buildSegment d.original_file_path
          (pathJoin (dirname d.original_file_path) srt) ++ [';']) []).take
      (((srtFilesExact files d.original_file_path).foldl (fun acc srt =>
        acc ++ buildSegment d.original_file_path
          (pathJoin (dirname d.original_file_path) srt) ++ [';']) []).length - 2)] :
        List Str) ≠ [])]
  rw [worker_longcommand_eq d.original_file_path (srtFilesExact files d.original_file_path) h]

/-- C3 (amended): for a non-empty candidate list the script is one
`ffsubsync` segment per candidate joined by `;` with no trailing
terminator, but additionally the final character of the last segment is
dropped: the `[:-2]` strip removes the trailing `;` AND the preceding
character, so the last segment ends `--gs` instead of `--gss`. -/
theorem c3_chain_drops_final_segment_char (files : List Str) (d : WorkerData)
    (h : srtFilesExact files d.original_file_path ≠ []) :
    (on_worker_process files true d).1.exec_command =
      ["bash".toList, "-c".toList,
       (sepJoin ';' ((srtFilesExact files d.original_file_path).map
          (fun srt => buildSegment d.original_file_path
             (pathJoin (dirname d.original_file_path) srt)))).dropLast] := by
  rw [on_worker_process_armed files d h]

set_option maxRecDepth 100000 in
/-- Counterexample to C3 as stated: with the two candidates of the
specification's own scenario the emitted script is NOT the chain of
intact segments joined by `;` (its last character is missing). -/
theorem c3_counterexample :
    (on_worker_process ["movie.en.srt".toList, "movie.fr.srt".toList] true
        ⟨[], false, "/lib/movie.mp4".toList, "/lib/movie.mp4".toList,
         "/lib/movie.mp4".toList, false⟩).1.exec_command ≠
      ["bash".toList, "-c".toList,
       sepJoin ';'
         [buildSegment "/lib/movie.mp4".toList "/lib/movie.en.srt".toList,
          buildSegment "/lib/movie.mp4".toList "/lib/movie.fr.srt".toList]] := by
  decide

set_option maxRecDepth 100000 in
/-- Witness for the amended C3 at the same two-candidate directory. -/
theorem c3_witness :
    srtFilesExact ["movie.en.srt".toList, "movie.fr.srt".toList]
        "/lib/movie.mp4".toList ≠ [] ∧
    (on_worker_process ["movie.en.srt".toList, "movie.fr.srt".toList] true
        ⟨[], false, "/lib/movie.mp4".toList, "/lib/movie.mp4".toList,
         "/lib/movie.mp4".toList, false⟩).1.exec_command =
      ["bash".toList, "-c".toList,
       (sepJoin ';' ((srtFilesExact ["movie.en.srt".toList, "movie.fr.srt".toList]
            "/lib/movie.mp4".toList).map
          (fun srt => buildSegment "/lib/movie.mp4".toList
             (pathJoin (dirname "/lib/movie.mp4".toList) srt)))).dropLast] :=
  ⟨by decide,
   c3_chain_drops_final_segment_char ["movie.en.srt".toList, "movie.fr.srt".toList]
     ⟨[], false, "/lib/movie.mp4".toList, "/lib/movie.mp4".toList,
      "/lib/movie.mp4".toList, false⟩ (by decide)⟩

theorem unquotedChars_sgl_escape (s : Str) :
    unquotedChars .sgl (escapeQuotes s ++ [squote]) = [] := by
  induction s with
  | nil => decide
  | cons c t ih =>
    by_cases hc : c = squote
    · subst hc
      have hne : ¬ (dquote = squote) := by decide
      simp only [escapeQuotes, List.flatMap_cons, if_pos rfl, List.append_assoc,
        List.cons_append, List.nil_append, unquotedChars, if_neg hne]
      exact ih
    · simp only [escapeQuotes, List.flatMap_cons, if_neg hc, List.cons_append,
        List.nil_append, unquotedChars, if_neg hc]
      exact ih

theorem unquotedChars_out_safe (s : Str) (hs : s.all shlexSafe = true) :
    unquotedChars .out s = s := by
  induction s with
  | nil => rfl
  | cons c t ih =>
    rw [List.all_cons, Bool.and_eq_true] at hs
    have hsq : ¬ (c = squote) := by
      intro hc
      subst hc
      exact absurd hs.1 (by decide)
    have hdq : ¬ (c = dquote) := by
      intro hc
      subst hc
      exact absurd hs.1 (by decide)
    rw [show unquotedChars .out (c :: t) =
        (if c = squote then unquotedChars .sgl t
         else if c = dquote then unquotedChars .dbl t
         else c :: unquotedChars .out t) from rfl]
    rw [if_neg hsq, if_neg hdq, ih hs.2]

theorem shlexQuote_no_unquoted_space (s : Str) :
    ∀ c ∈ unquotedChars .out (shlexQuote s), c ≠ ' ' := by
  unfold shlexQuote
  by_cases h0 : s = []
  · rw [if_pos h0]
    decide
  · rw [if_neg h0]
    by_cases h1 : s.all shlexSafe = true
    · rw [if_pos h1]
      rw [unquotedChars_out_safe s h1]
      intro c hc hsp
      subst hsp
      have := (List.all_eq_true.mp h1) _ hc
      exact absurd this (by decide)
    · rw [if_neg h1]
      have hne : ¬ (squote = dquote) := by decide
      rw [show unquotedChars .out (squote :: escapeQuotes s ++ [squote]) =
          unquotedChars .sgl (escapeQuotes s ++ [squote]) from by
        simp [unquotedChars]]
      rw [unquotedChars_sgl_escape]
      intro c hc
      exact absurd hc (List.not_mem_nil c)

/-- C7: each path interpolated into a script segment enters only through
`shlex.quote` (first conjunct: the segment is built from the quoted
forms), and the quoted form of any path leaves no space character
outside shell quotes, so a path containing spaces never appears
un-escaped in the produced script. -/
theorem c7_interpolated_paths_quoted (abspath srtpath : Str) :
    buildSegment abspath srtpath =
      "ffsubsync ".toList ++ shlexQuote abspath ++ " -i ".toList ++
      shlexQuote srtpath ++ " -o ".toList ++ shlexQuote srtpath ++
      " --gss".toList ∧
    (∀ c ∈ unquotedChars .out (shlexQuote abspath), c ≠ ' ') ∧
    (∀ c ∈ unquotedChars .out (shlexQuote srtpath), c ≠ ' ') :=
  ⟨rfl, shlexQuote_no_unquoted_space abspath, shlexQuote_no_unquoted_space srtpath⟩

/-- Witness for C7 on a media path containing spaces: no space of its
quoted form is outside shell quotes. -/
theorem c7_witness :
    ¬ (' ' ∈ unquotedChars .out (shlexQuote "/media/My Movie (2001).mp4".toList)) :=
  fun h =>
    (c7_interpolated_paths_quoted "/media/My Movie (2001).mp4".toList
      "/media/My Movie (2001).srt".toList).2.1 ' ' h rfl

theorem recordedList_eq_valueAt (listdir : Str → List Str) (f : Str) :
    recordedList listdir f = valueAt listdir (dirname f) (basename f) := rfl

theorem ppStep_fold_store (listdir : Str → List Str) (l : List Str) :
    ∀ (s : Store) (ops : List SyncOp),
      (l.foldl (ppStep listdir) (s, ops)).1 = ppStoreFold listdir l s := by
  induction l with
  | nil => intro s ops; rfl
  | cons g t ih =>
    intro s ops
    rw [List.foldl_cons, show ppStep listdir (s, ops) g =
      (storeSet s (dirname g) (basename g) (recordedList listdir g),
       ops ++ [SyncOp.set (dirname g) (basename g) (recordedList listdir g),
               SyncOp.save (dirname g)]) from rfl]
    rw [ih]
    rfl

theorem ppStep_fold_ops (listdir : Str → List Str) (l : List Str) :
    ∀ (s : Store) (ops : List SyncOp),
      (l.foldl (ppStep listdir) (s, ops)).2 = ops ++ l.flatMap (opsFor listdir) := by
  induction l with
  | nil => intro s ops; simp
  | cons g t ih =>
    intro s ops
    rw [List.foldl_cons, show ppStep listdir (s, ops) g =
      (storeSet s (dirname g) (basename g) (recordedList listdir g),
       ops ++ [SyncOp.set (dirname g) (basename g) (recordedList listdir g),
               SyncOp.save (dirname g)]) from rfl]
    rw [ih, List.flatMap_cons]
    simp [opsFor, List.append_assoc]

theorem on_post_data_unchanged (listdir : Str → List Str) (d : PPData) (st : Store) :
    (on_postprocessor_task_results listdir d st).1 = d := by
  unfold on_postprocessor_task_results
  split
  · rfl
  · rfl

theorem on_post_success_store (listdir : Str → List Str) (d : PPData) (st : Store)
    (h : d.task_processing_success = true) :
    (on_postprocessor_task_results listdir d st).2.1 =
      ppStoreFold listdir d.destination_files st := by
  unfold on_postprocessor_task_results
  rw [if_neg (by rw [h]; decide)]
  exact ppStep_fold_store listdir d.destination_files st []

theorem on_post_success_ops (listdir : Str → List Str) (d : PPData) (st : Store)
    (h : d.task_processing_success = true) :
    (on_postprocessor_task_results listdir d st).2.2 =
      d.destination_files.flatMap (opsFor listdir) := by
  unfold on_postprocessor_task_results
  rw [if_neg (by rw [h]; decide)]
  rw [ppStep_fold_ops listdir d.destination_files st []]
  rfl

theorem ppStoreFold_cases (listdir : Str → List Str) (l : List Str) :
    ∀ (s : Store) (D B : Str),
      ppStoreFold listdir l s D B = s D B ∨
      (∃ g ∈ l, dirname g = D ∧ basename g = B ∧
        ppStoreFold listdir l s D B = some (valueAt listdir D B)) := by
  induction l with
  | nil => intro s D B; left; rfl
  | cons g t ih =>
    intro s D B
    have hcons : ppStoreFold listdir (g :: t) s =
        ppStoreFold listdir t
          (storeSet s (dirname g) (basename g) (recordedList listdir g)) := rfl
    rcases ih (storeSet s (dirname g) (basename g) (recordedList listdir g)) D B with
      h | ⟨g2, hg2, hD, hB, hv⟩
    · by_cases hk : D = dirname g ∧ B = basename g
      · right
        refine ⟨g, List.mem_cons_self g t, hk.1.symm, hk.2.symm, ?_⟩
        rw [hcons, h]
        unfold storeSet
        rw [if_pos hk, recordedList_eq_valueAt, hk.1, hk.2]
      · left
        rw [hcons, h]
        unfold storeSet
        rw [if_neg hk]
    · right
      exact ⟨g2, List.mem_cons_of_mem g hg2, hD, hB, by rw [hcons]; exact hv⟩

theorem ppStoreFold_mem (listdir : Str → List Str) (l : List Str) :
    ∀ (s : Store) (f : Str), f ∈ l →
      ppStoreFold listdir l s (dirname f) (basename f) =
        some (recordedList listdir f) := by
  induction l with
  | nil => intro s f hf; exact absurd hf (List.not_mem_nil f)
  | cons g t ih =>
    intro s f hf
    have hcons : ppStoreFold listdir (g :: t) s =
        ppStoreFold listdir t
          (storeSet s (dirname g) (basename g) (recordedList listdir g)) := rfl
    by_cases hft : f ∈ t
    · rw [hcons]
      exact ih _ f hft
    · have hfg : f = g := by
        rcases List.mem_cons.mp hf with h | h
        · exact h
        · exact absurd h hft
      subst hfg
      rw [hcons]
      rcases ppStoreFold_cases listdir t
          (storeSet s (dirname f) (basename f) (recordedList listdir f))
          (dirname f) (basename f) with h | ⟨g2, hg2, hD, hB, hv⟩
      · rw [h]
        unfold storeSet
        rw [if_pos ⟨rfl, rfl⟩]
      · rw [hv, recordedList_eq_valueAt]

/-!
## Claims about the completion recorder
-/

set_option maxRecDepth 100000 in
/-- Counterexample to C4 as stated: for destination `/d/Movie.mp4` in a
directory holding `Movie.srt` and `Movie.SRT`, nothing is stored under
the lowercased key `movie.mp4`, and the entry actually written (under
`Movie.mp4`) omits the upper-case `.SRT` file, so the key is not
lowercased and the extension match is case-sensitive. -/
theorem c4_counterexample :
    ((on_postprocessor_task_results
        (fun dir => if dir = "/d".toList
          then ["Movie.srt".toList, "Movie.SRT".toList] else [])
        ⟨true, true, ["/d/Movie.mp4".toList], []⟩
        (fun _ _ => none)).2.1 "/d".toList "movie.mp4".toList = none) ∧
    ((on_postprocessor_task_results
        (fun dir => if dir = "/d".toList
          then ["Movie.srt".toList, "Movie.SRT".toList] else [])
        ⟨true, true, ["/d/Movie.mp4".toList], []⟩
        (fun _ _ => none)).2.1 "/d".toList "Movie.mp4".toList =
      some ["Movie.srt".toList]) := by
  constructor
  · rfl
  · rfl

/-- C4 (amended): on success, for every destination file the recorder
persists — under the key `os.path.basename(destination)` exactly as
written, NOT lowercased — the list of directory entries whose extension
is `.srt` matched case-SENSITIVELY and whose name contains the
destination's root, and it issues the corresponding `set` and `save`
store calls. -/
theorem c4_records_srt_list_under_basename (listdir : Str → List Str)
    (d : PPData) (st : Store) (f : Str)
    (hsucc : d.task_processing_success = true)
    (hf : f ∈ d.destination_files) :
    (on_postprocessor_task_results listdir d st).2.1 (dirname f) (basename f) =
      some (recordedList listdir f) ∧
    SyncOp.set (dirname f) (basename f) (recordedList listdir f) ∈
      (on_postprocessor_task_results listdir d st).2.2 ∧
    SyncOp.save (dirname f) ∈ (on_postprocessor_task_results listdir d st).2.2 := by
  refine ⟨?_, ?_, ?_⟩
  · rw [on_post_success_store listdir d st hsucc]
    exact ppStoreFold_mem listdir d.destination_files st f hf
  · rw [on_post_success_ops listdir d st hsucc, List.mem_flatMap]
    exact ⟨f, hf, by simp [opsFor]⟩
  · rw [on_post_success_ops listdir d st hsucc, List.mem_flatMap]
    exact ⟨f, hf, by simp [opsFor]⟩

set_option maxRecDepth 100000 in
/-- Witness for the amended C4 on a one-destination task. -/
theorem c4_witness :
    (⟨true, true, ["/w/show.mp4".toList], []⟩ : PPData).task_processing_success = true ∧
    "/w/show.mp4".toList ∈
      (⟨true, true, ["/w/show.mp4".toList], []⟩ : PPData).destination_files ∧
    ((on_postprocessor_task_results
        (fun dir => if dir = "/w".toList then ["show.srt".toList] else [])
        ⟨true, true, ["/w/show.mp4".toList], []⟩
        (fun _ _ => none)).2.1 (dirname "/w/show.mp4".toList)
          (basename "/w/show.mp4".toList) =
        some (recordedList
          (fun dir => if dir = "/w".toList then ["show.srt".toList] else [])
          "/w/show.mp4".toList) ∧
     SyncOp.set (dirname "/w/show.mp4".toList) (basename "/w/show.mp4".toList)
        (recordedList
          (fun dir => if dir = "/w".toList then ["show.srt".toList] else [])
          "/w/show.mp4".toList) ∈
       (on_postprocessor_task_results
          (fun dir => if dir = "/w".toList then ["show.srt".toList] else [])
          ⟨true, true, ["/w/show.mp4".toList], []⟩ (fun _ _ => none)).2.2 ∧
     SyncOp.save (dirname "/w/show.mp4".toList) ∈
       (on_postprocessor_task_results
          (fun dir => if dir = "/w".toList then ["show.srt".toList] else [])
          ⟨true, true, ["/w/show.mp4".toList], []⟩ (fun _ _ => none)).2.2) :=
  ⟨rfl, by decide,
   c4_records_srt_list_under_basename
     (fun dir => if dir = "/w".toList then ["show.srt".toList] else [])
     ⟨true, true, ["/w/show.mp4".toList], []⟩ (fun _ _ => none)
     "/w/show.mp4".toList rfl (by decide)⟩

/-- C5: when the overall success flag is false the recorder is a no-op:
it returns its input unchanged, the persisted store is untouched and no
`set` or `save` store call is made. -/
theorem c5_noop_on_failure (listdir : Str → List Str) (d : PPData) (st : Store)
    (h : d.task_processing_success = false) :
    on_postprocessor_task_results listdir d st = (d, st, []) := by
  unfold on_postprocessor_task_results
  rw [if_pos h]

/-- Witness for C5 on a concrete failed task. -/
theorem c5_witness :
    (⟨false, true, ["/d/file.mp4".toList], []⟩ : PPData).task_processing_success = false ∧
    on_postprocessor_task_results (fun _ => ["file.srt".toList])
        ⟨false, true, ["/d/file.mp4".toList], []⟩ (fun _ _ => none) =
      (⟨false, true, ["/d/file.mp4".toList], []⟩, (fun _ _ => none), []) :=
  ⟨rfl,
   c5_noop_on_failure (fun _ => ["file.srt".toList])
     ⟨false, true, ["/d/file.mp4".toList], []⟩ (fun _ _ => none) rfl⟩

/-- C6: the recorder is idempotent on the persisted record: with a fixed
destination list and fixed directory contents, running it a second time
on its own successful output leaves the store exactly as after the first
run (each entry is overwritten with the same recomputed list). -/
theorem c6_recorder_idempotent (listdir : Str → List Str) (d : PPData) (st : Store)
    (hsucc : d.task_processing_success = true) :
    (on_postprocessor_task_results listdir
        (on_postprocessor_task_results listdir d st).1
        (on_postprocessor_task_results listdir d st).2.1).2.1 =
      (on_postprocessor_task_results listdir d st).2.1 := by
  rw [on_post_data_unchanged listdir d st]
  rw [on_post_success_store listdir d st hsucc]
  rw [on_post_success_store listdir d (ppStoreFold listdir d.destination_files st) hsucc]
  funext D B
  rcases ppStoreFold_cases listdir d.destination_files
      (ppStoreFold listdir d.destination_files st) D B with h | ⟨g, hg, hD, hB, hv⟩
  · exact h
  · rw [hv]
    subst hD
    subst hB
    rw [← recordedList_eq_valueAt]
    exact (ppStoreFold_mem listdir d.destination_files st g hg).symm

/-- Witness for C6 on a concrete successful task. -/
theorem c6_witness :
    (⟨true, true, ["/d/film.mp4".toList], []⟩ : PPData).task_processing_success = true ∧
    (on_postprocessor_task_results (fun _ => ["film.srt".toList])
        (on_postprocessor_task_results (fun _ => ["film.srt".toList])
          ⟨true, true, ["/d/film.mp4".toList], []⟩ (fun _ _ => none)).1
        (on_postprocessor_task_results (fun _ => ["film.srt".toList])
          ⟨true, true, ["/d/film.mp4".toList], []⟩ (fun _ _ => none)).2.1).2.1 =
      (on_postprocessor_task_results (fun _ => ["film.srt".toList])
        ⟨true, true, ["/d/film.mp4".toList], []⟩ (fun _ _ => none)).2.1 :=
  ⟨rfl,
   c6_recorder_idempotent (fun _ => ["film.srt".toList])
     ⟨true, true, ["/d/film.mp4".toList], []⟩ (fun _ _ => none) rfl⟩
